import Mathlib

/-!
Verification development for the configuration persistence and
transactional backup/restore subsystem of the nimbus repository.

The Lean definitions below are a shallow embedding of the Python sources:

  * `src/core/interfaces.py`            (`User.validate`)
  * `src/admin-panel/core/user_storage.py`   (`UserStorage`)
  * `src/admin-panel/core/backup_manager.py` (`BackupManager`)

File contents are modelled as an inductive `UContent`: `doc d` stands for
the (deterministic, injective) JSON serialization of the document value
`d`, and `corrupt n` stands for a byte string that `json.load` rejects
(the tag `n` distinguishes different corrupt byte strings).  Byte-for-byte
equality of files is equality of `UContent` values.  Python exceptions are
modelled with `Except String`, external library checks (such as
`datetime.fromisoformat`) are passed in as boolean-valued parameters, and
each filesystem-mutating operation is written in explicit state-passing
style so that partial effects of failed operations stay visible.
-/

namespace Nimbus

/-!
Computable counterparts of the Python string primitives the sources use.
All of them recurse structurally on the character list of the string, so
the kernel can evaluate them inside `decide` and `rfl` proofs (the
`String` order bundled with Mathlib is defined by well-founded recursion
on iterators, which the kernel cannot reduce).
-/

/-- Lexicographic comparison of code-point lists; Python compares
strings exactly this way. -/
def lexLe : List Char → List Char → Bool
  | [], _ => true
  | _ :: _, [] => false
  | a :: as, b :: bs => if a = b then lexLe as bs else decide (a < b)

/-- Boolean string comparison used wherever the sources call
`sorted` on filenames. -/
def strLeb (a b : String) : Bool :=
  lexLe a.data b.data

/-- The ordering relation on strings induced by `strLeb`. -/
abbrev StrLe (a b : String) : Prop := strLeb a b = true

/-- Boolean list-prefix test. -/
def prefixB : List Char → List Char → Bool
  | [], _ => true
  | _ :: _, [] => false
  | a :: as, b :: bs => a = b && prefixB as bs

/-- Python `str.startswith`. -/
def pyStartsWith (s pre : String) : Bool :=
  prefixB pre.data s.data

/-- Python `str.endswith`. -/
def pyEndsWith (s suf : String) : Bool :=
  prefixB suf.data.reverse s.data.reverse

/-- Worker for `pyReplace`; the fuel argument (one unit per character of
the subject) keeps the recursion structural. -/
def replaceFuel (p : Char) (ps repl : List Char) : Nat → List Char → List Char
  | 0, s => s
  | _ + 1, [] => []
  | fuel + 1, c :: rest =>
    if prefixB (p :: ps) (c :: rest) then
      repl ++ replaceFuel p ps repl fuel (rest.drop ps.length)
    else c :: replaceFuel p ps repl fuel rest

/-- Python `str.replace`: replace every non-overlapping occurrence of
`pat`, scanning left to right. -/
def pyReplace (s pat repl : String) : String :=
  match pat.data with
  | [] => s
  | p :: ps => String.mk (replaceFuel p ps repl.data s.data.length s.data)

/-- ASCII lower-casing of one character (Python `str.lower` restricted
to the ASCII identifiers appearing in this subsystem). -/
def asciiLowerChar (c : Char) : Char :=
  if 'A' ≤ c && c ≤ 'Z' then Char.ofNat (c.toNat + 32) else c

/-- Python `str.lower` on ASCII strings. -/
def pyLower (s : String) : String :=
  String.mk (s.data.map asciiLowerChar)

/-- Character class `[a-zA-Z0-9_-]` used by the username regex in
`User.validate` (interfaces.py line 41). -/
def isWordChar (c : Char) : Bool :=
  c.isAlpha || c.isDigit || c = '_' || c = '-'

/-- Test for the regex `^[a-zA-Z0-9_-]{3,32}$` (interfaces.py line 41).
The `$` anchor is modelled as end-of-string. -/
def usernameOk (s : String) : Bool :=
  3 ≤ s.length && s.length ≤ 32 && s.data.all isWordChar

/-- Lower-case hexadecimal digit, as matched by `[0-9a-f]`. -/
def isHexLower (c : Char) : Bool :=
  c.isDigit || ('a' ≤ c && c ≤ 'f')

/-- Test for the UUID regex
`^[0-9a-f]{8}-[0-9a-f]{4}-[0-9a-f]{4}-[0-9a-f]{4}-[0-9a-f]{12}$`
(interfaces.py line 45), applied positionally: dashes at offsets
8, 13, 18 and 23, lower-case hex digits everywhere else, length 36. -/
def uuidOk (s : String) : Bool :=
  s.data.length = 36 &&
  s.data.enum.all fun p =>
    if p.1 = 8 || p.1 = 13 || p.1 = 18 || p.1 = 23 then p.2 = '-'
    else isHexLower p.2

/-- User record (dataclass `User` in interfaces.py).  Field names and
order follow the source; `Option` stands for Python `None`. -/
structure User where
  username : String
  id : String
  xray_uuid : String
  wireguard_private_key : String
  wireguard_public_key : String
  trojan_password : String
  shadowtls_password : Option String := none
  shadowsocks_password : Option String := none
  hysteria2_password : Option String := none
  tuic_uuid : Option String := none
  tuic_password : Option String := none
  created_at : String := ""
  last_seen : Option String := none
  is_active : Bool := true
  deriving Repr, DecidableEq

/-- Embedding of `User.validate` (interfaces.py lines 36-74).  `isoOk`
models `datetime.fromisoformat` succeeding on its argument; checks run in
source order and the first failing check raises `ValueError` with the
corresponding message. -/
def userValidate (isoOk : String → Bool) (u : User) : Except String Unit :=
  if u.username = "" then
    .error "Username must be a non-empty string"
  else if ¬ usernameOk u.username then
    .error "Username must be 3-32 characters, alphanumeric with _ or -"
  else if ¬ uuidOk (pyLower u.id) then
    .error ("Invalid user ID format: " ++ u.id)
  else if ¬ uuidOk (pyLower u.xray_uuid) then
    .error ("Invalid Xray UUID format: " ++ u.xray_uuid)
  else if (match u.tuic_uuid with
           | some t => t ≠ "" && ¬ uuidOk (pyLower t)
           | none => false) then
    .error "Invalid TUIC UUID format"
  else if u.wireguard_private_key = "" ∨ u.wireguard_private_key.length < 32 then
    .error "WireGuard private key must be at least 32 characters"
  else if u.wireguard_public_key = "" ∨ u.wireguard_public_key.length < 32 then
    .error "WireGuard public key must be at least 32 characters"
  else if u.trojan_password = "" ∨ u.trojan_password.length < 16 then
    .error "Trojan password must be at least 16 characters"
  else if u.created_at ≠ "" ∧ ¬ isoOk (pyReplace u.created_at "Z" "+00:00") then
    .error ("Invalid created_at date format: " ++ u.created_at)
  else if (match u.last_seen with
           | some t => t ≠ "" && ¬ isoOk (pyReplace t "Z" "+00:00")
           | none => false) then
    .error "Invalid last_seen date format"
  else
    .ok ()

/-- Result of a Python call that may raise: `.ok` or `.error message`. -/
def isOkB : Except String Unit → Bool
  | .ok _ => true
  | .error _ => false

/-- Opaque server-level metadata bag (the `server` sub-object of
users.json); `0` stands for the empty bag `{}`. -/
abbrev Srv := Nat

/-- The persisted aggregate stored in users.json (see
`UserStorage._initialize_users_file` and `UserStorage.save_users`). -/
structure UDoc where
  schema_version : Nat
  users : List (String × User)
  server : Srv := 0
  last_modified : Option String := none
  deriving Repr, DecidableEq

/-- File contents. `doc d` is the JSON serialization of document `d`
(deterministic and injective, since `json.dump` is called with
`sort_keys=True`); `corrupt n` is a byte string `json.load` rejects. -/
inductive UContent where
  | doc (d : UDoc)
  | corrupt (n : Nat)
  deriving Repr, DecidableEq

/-- Filesystem state owned by `UserStorage`: the users.json file and the
backup directory (filename to contents). -/
structure UFS where
  usersFile : Option UContent
  backups : List (String × UContent)
  deriving Repr, DecidableEq

/-- Look up a filename in a directory listing. -/
def lookupA {α : Type} : List (String × α) → String → Option α
  | [], _ => none
  | p :: rest, n => if p.1 = n then some p.2 else lookupA rest n

/-- Write a file: overwrite in place if the name exists, else append. -/
def updateA {α : Type} : List (String × α) → String → α → List (String × α)
  | [], n, v => [(n, v)]
  | p :: rest, n, v =>
    if p.1 = n then (n, v) :: rest else p :: updateA rest n v

/-- Python `sorted` on filenames: ascending lexicographic order. -/
def pysorted (l : List String) : List String :=
  l.insertionSort StrLe

/-- Python `sorted(..., reverse=True)` on filenames. -/
def pysortedRev (l : List String) : List String :=
  (pysorted l).reverse

/-- Embedding of `UserStorage._create_backup` (user_storage.py lines
85-110): copy users.json to `users_<type>_<timestamp>.json`, then, for
`auto` backups only, keep just the 10 lexically-largest
`users_auto_*.json` files.  `ts` is the `strftime` result for
`datetime.utcnow()`. -/
def createUserBackup (btype ts : String) (st : UFS) : UFS × Except String String :=
  match st.usersFile with
  | none => (st, .error "Users file not found")
  | some c =>
    let name := "users_" ++ btype ++ "_" ++ ts ++ ".json"
    let backups1 := updateA st.backups name c
    let backups2 :=
      if btype = "auto" then
        let autos := pysorted ((backups1.map Prod.fst).filter fun n =>
          pyStartsWith n "users_auto_" && pyEndsWith n ".json")
        if autos.length > 10 then
          let dead := autos.take (autos.length - 10)
          backups1.filter fun p => !(dead.contains p.1)
        else backups1
      else backups1
    ({ st with backups := backups2 }, .ok name)

/-- Validation loop of `UserStorage.save_users` (lines 201-203): raises
on the first record whose `validate` fails. -/
def validateAll (isoOk : String → Bool) : List (String × User) → Except String Unit
  | [] => .ok ()
  | p :: rest =>
    match userValidate isoOk p.2 with
    | .error e => .error e
    | .ok _ => validateAll isoOk rest

/-- Embedding of `UserStorage.save_users` (lines 186-235).  The advisory
lock is held for the whole call (see `AStep` below for the concurrency
model); exceptions are printed and re-raised, so they appear as `.error`
results, and the post-state records every effect performed before the
raise. -/
def saveUsers (isoOk : String → Bool) (ts : String) (users : List (String × User))
    (st : UFS) : UFS × Except String Unit :=
  match validateAll isoOk users with
  | .error e => (st, .error e)
  | .ok _ =>
    match st.usersFile with
    | none =>
      let d : UDoc :=
        { schema_version := 1, users := users, server := 0, last_modified := some ts }
      ({ st with usersFile := some (.doc d) }, .ok ())
    | some c =>
      let st1 := (createUserBackup "auto" ts st).1
      match c with
      | .corrupt _ =>
        (st1, .error "JSONDecodeError")
      | .doc old =>
        let d : UDoc :=
          { schema_version := 1, users := users, server := old.server,
            last_modified := some ts }
        ({ st1 with usersFile := some (.doc d) }, .ok ())

/-- Per-record parse step of `UserStorage.load_users` (lines 145-166):
each stored record is rebuilt with the mapping key as its username and
validated via `User.from_dict`; records failing validation are dropped
with a diagnostic. -/
def loadParsedUsers (isoOk : String → Bool) (d : UDoc) : List (String × User) :=
  d.users.filterMap fun p =>
    let u := { p.2 with username := p.1 }
    match userValidate isoOk u with
    | .ok _ => some (p.1, u)
    | .error _ => none

/-- Candidate order used by `UserStorage._restore_from_latest_backup`
(line 387): `sorted(self.backup_dir.glob("users_*.json"), reverse=True)`,
that is, all backup filenames in descending lexicographic order. -/
def fallbackCandidates (st : UFS) : List String :=
  pysortedRev ((st.backups.map Prod.fst).filter fun n =>
    pyStartsWith n "users_" && pyEndsWith n ".json")

/-- Outcome of a `load_users` call.  `returns st users` is a normal
return with `st` the on-disk state afterwards; `blocked st` means the
call never returns: it is blocked inside `_acquire_lock`, with `st` the
on-disk state at the moment it blocked. -/
inductive LoadOutcome where
  | returns (st : UFS) (users : List (String × User))
  | blocked (st : UFS)
  deriving Repr, DecidableEq

/-- Loop of `_restore_from_latest_backup` (lines 393-407).  Each
iteration copies the candidate over users.json and then re-enters
`self.load_users()`.  That inner call runs `_acquire_lock`, which opens
a fresh descriptor of the lock file and issues a blocking
`fcntl.flock(LOCK_EX)`; the outer `load_users` still holds the
exclusive flock (its `finally` has not run), and flock treats two
descriptors of one file in the same process as conflicting, so the
inner call blocks forever.  The loop therefore only advances past a
candidate when its `shutil.copy2` itself raises (candidate file gone;
caught by the `except` and skipped); the first candidate that copies
successfully is written over the live document and the call then
blocks.  With no copyable candidate the loop ends and `{}` is
returned. -/
def restoreFromLatestBackup (st : UFS) : List String → LoadOutcome
  | [] => .returns st []
  | n :: rest =>
    match lookupA st.backups n with
    | none => restoreFromLatestBackup st rest
    | some c => .blocked { st with usersFile := some c }

/-- Embedding of `UserStorage.load_users` (lines 124-184): parse
users.json, dropping invalid records; a missing file yields `{}`; a
decode error triggers the backup fallback, whose inner `load_users`
re-entry blocks on the advisory lock the outer call still holds. -/
def loadUsers (isoOk : String → Bool) (st : UFS) : LoadOutcome :=
  match st.usersFile with
  | none => .returns st []
  | some (.doc d) => .returns st (loadParsedUsers isoOk d)
  | some (.corrupt _) => restoreFromLatestBackup st (fallbackCandidates st)

/-- Embedding of `UserStorage._migrate_data` (lines 336-378),
parameterized by the version-specific transform `step` (the v0-to-v1
step of the source is `migrateV0V1` below).  A pre-migration backup is
taken first; if reading or transforming raises, the backup is copied
back over users.json and the exception is re-raised. -/
def migrateData (step : UDoc → Except String UDoc) (ts : String) (st : UFS) :
    UFS × Except String Unit :=
  match st.usersFile with
  | none => (st, .error "Users file not found")
  | some c =>
    let st1 := (createUserBackup "pre-migration" ts st).1
    match c with
    | .corrupt _ =>
      ({ st1 with usersFile := some c }, .error "JSONDecodeError")
    | .doc d =>
      match step d with
      | .error e => ({ st1 with usersFile := some c }, .error e)
      | .ok d2 => ({ st1 with usersFile := some (.doc d2) }, .ok ())

/-- The v0-to-v1 transform of `_migrate_data` (lines 352-368): set
`schema_version` to 1 and backfill absent Sing-box credential fields
from the generator stream `gen`, never overwriting present values. -/
def migrateV0V1 (gen : Nat → String) (d : UDoc) : Except String UDoc :=
  .ok { d with
    schema_version := 1,
    users := d.users.map fun p =>
      (p.1, { p.2 with
        shadowtls_password := some (p.2.shadowtls_password.getD (gen 0)),
        shadowsocks_password := some (p.2.shadowsocks_password.getD (gen 1)),
        hysteria2_password := some (p.2.hysteria2_password.getD (gen 2)),
        tuic_uuid := some (p.2.tuic_uuid.getD (gen 3)),
        tuic_password := some (p.2.tuic_password.getD (gen 4)) }) }

/-- Embedding of `UserStorage._migrate_data_if_needed` (lines 320-334):
read the schema version and migrate when it is below the target; the
whole body is wrapped in `try/except Exception: print(...)`, so every
failure (including a failed migration) is caught and only printed. -/
def migrateDataIfNeeded (step : UDoc → Except String UDoc) (ts : String)
    (st : UFS) : UFS × Except String Unit :=
  match st.usersFile with
  | none => (st, .ok ())
  | some (.corrupt _) => (st, .ok ())
  | some (.doc d) =>
    if d.schema_version < 1 then
      let r := migrateData step ts st
      (r.1, .ok ())
    else (st, .ok ())

/-!
Concurrency model for `add_user` (user_storage.py lines 237-268).

`add_user` first calls `load_users()` and later calls `save_users(...)`.
Each of those two calls acquires the advisory `flock` on entry and
releases it in its `finally` block, so each call is one atomic critical
section; between them `add_user` holds no lock (it only computes on its
in-memory copy).  Two concurrent `add_user` invocations are therefore
modelled as interleavings of four atomic segments: each process has a
`load` segment and a `save` segment, and any interleaving of segments
respects the lock because no segment spans a release.
-/

/-- Static description of one `add_user` invocation: the username it
adds and the timestamp its `save_users` call observes. -/
structure ProcDef where
  uname : String
  ts : String

/-- Shared filesystem plus the per-process in-memory state of two
concurrent `add_user` invocations.  `localI` is process i's loaded copy;
`okI` records whether its `save_users` returned normally. -/
structure TwoProcWorld where
  fs : UFS
  local1 : Option (List (String × User)) := none
  local2 : Option (List (String × User)) := none
  ok1 : Option Bool := none
  ok2 : Option Bool := none
  deriving Repr, DecidableEq

/-- One atomic lock-protected segment of either process. -/
inductive AStep where
  | load1 | load2 | save1 | save2
  deriving Repr, DecidableEq

/-- A concrete valid user record with fixed generated credentials,
standing for the record `add_user` builds (lines 245-263). -/
def mkUser (name : String) : User :=
  { username := name,
    id := "00000000-0000-4000-8000-000000000000",
    xray_uuid := "00000000-0000-4000-8000-000000000001",
    wireguard_private_key := "0123456789abcdef0123456789abcdef0123456789a=",
    wireguard_public_key := "abcdef0123456789abcdef0123456789abcdef01234=",
    trojan_password := "0123456789abcdef0123456789abcdef",
    shadowtls_password := some "0123456789abcdef0123456789abcdef",
    shadowsocks_password := some "0123456789abcdef0123456789abcdef",
    hysteria2_password := some "0123456789abcdef0123456789abcdef",
    tuic_uuid := some "00000000-0000-4000-8000-000000000002",
    tuic_password := some "0123456789abcdef0123456789abcdef",
    created_at := "",
    last_seen := none,
    is_active := true }

/-- The save segment of `add_user`: check for a duplicate, extend the
loaded copy with the freshly generated record, and run `save_users`. -/
def saveSegment (isoOk : String → Bool) (p : ProcDef)
    (l : List (String × User)) (fs : UFS) : UFS × Bool :=
  if (lookupA l p.uname).isSome then (fs, false)
  else
    let users := l ++ [(p.uname, mkUser p.uname)]
    let r := saveUsers isoOk p.ts users fs
    (r.1, isOkB r.2)

/-- Execute one atomic segment of the two-process world.  A load whose
`load_users` call blocks never returns, so the process obtains no
loaded copy (and, with `localI` still `none`, its save segment never
runs — the process is stuck). -/
def stepWorld (isoOk : String → Bool) (p1 p2 : ProcDef) (w : TwoProcWorld) :
    AStep → TwoProcWorld
  | .load1 =>
    match loadUsers isoOk w.fs with
    | .returns fs2 users => { w with fs := fs2, local1 := some users }
    | .blocked fs2 => { w with fs := fs2 }
  | .load2 =>
    match loadUsers isoOk w.fs with
    | .returns fs2 users => { w with fs := fs2, local2 := some users }
    | .blocked fs2 => { w with fs := fs2 }
  | .save1 =>
    match w.local1 with
    | none => w
    | some l =>
      let r := saveSegment isoOk p1 l w.fs
      { w with fs := r.1, ok1 := some r.2 }
  | .save2 =>
    match w.local2 with
    | none => w
    | some l =>
      let r := saveSegment isoOk p2 l w.fs
      { w with fs := r.1, ok2 := some r.2 }

/-- Run a schedule of atomic segments. -/
def runWorld (isoOk : String → Bool) (p1 p2 : ProcDef) (w : TwoProcWorld) :
    List AStep → TwoProcWorld
  | [] => w
  | s :: rest => runWorld isoOk p1 p2 (stepWorld isoOk p1 p2 w s) rest

/-- Users currently recorded in the on-disk document, if it parses. -/
def docUsers (fs : UFS) : List (String × User) :=
  match fs.usersFile with
  | some (.doc d) => d.users
  | _ => []

end Nimbus

/-!
Embedding of `BackupManager` (backup_manager.py).

The live configuration tree (users.json plus the generated per-protocol
configs that `create_backup` archives and `restore_backup` copies back)
is abstracted to a single value `cfg : Nat`; an archive stores the tree
it was created from.  Archive files are always well-formed in this model
(`validate_backup_integrity` succeeds exactly when the archive file
exists), timestamps are drawn from the `clock` stream of pending
`datetime.utcnow().strftime("%Y%m%d_%H%M%S")` results, and service
stop/start behaviour is a deterministic function of the service name.
-/

namespace Nimbus

/-- Metadata record written next to each archive (backup_manager.py
lines 92-104); size fields are omitted. -/
structure BMeta where
  timestamp : String
  description : String
  filename : String
  deriving Repr, DecidableEq

/-- Filesystem and clock state owned by `BackupManager`. -/
structure BFS where
  archives : List (String × Nat)
  metas : List (String × BMeta)
  cfg : Nat
  clock : List String
  deriving Repr, DecidableEq

/-- Remove a file from a directory listing. -/
def removeA {α : Type} (l : List (String × α)) (n : String) : List (String × α) :=
  l.filter fun p => p.1 ≠ n

/-- Python `PurePath.with_suffix(".json")`: replace the shortest (last)
extension, so `backup_X.tar.gz` becomes `backup_X.tar.json`.  Names
without a dot get `.json` appended. -/
def withSuffixJson (name : String) : String :=
  let r := name.data.reverse
  if r.contains '.' then
    String.mk (((r.dropWhile (· ≠ '.')).drop 1).reverse) ++ ".json"
  else name ++ ".json"

/-- Archive filenames matched by `glob("backup_*.tar.gz")`. -/
def isArchiveName (n : String) : Bool :=
  pyStartsWith n "backup_" && pyEndsWith n ".tar.gz"

/-- Metadata filenames matched by `glob("backup_*.json")`. -/
def isMetaName (n : String) : Bool :=
  pyStartsWith n "backup_" && pyEndsWith n ".json"

/-- Embedding of `BackupManager._cleanup_old_backups` (lines 411-424):
sort the archive names ascending and delete all but the last `keep`,
attempting for each deleted archive to also delete
`old_backup.with_suffix(".json")` when that file exists. -/
def cleanupOldBackups (keep : Nat) (st : BFS) : BFS :=
  let backups := pysorted ((st.archives.map Prod.fst).filter isArchiveName)
  if backups.length > keep then
    let dead := backups.take (backups.length - keep)
    { st with
      archives := st.archives.filter fun p => !(dead.contains p.1),
      metas := st.metas.filter fun p => !(dead.contains (withSuffixJson p.1)) }
  else st

/-- Archive filename built at backup_manager.py line 34. -/
def archiveNameOf (ts : String) : String :=
  "backup_" ++ ts ++ ".tar.gz"

/-- Metadata filename built at backup_manager.py line 102. -/
def metaNameOf (ts : String) : String :=
  "backup_" ++ ts ++ ".json"

/-- Embedding of `BackupManager.create_backup` (lines 30-109): archive
the current configuration tree under `backup_<timestamp>.tar.gz`, write
the metadata record, then prune to the newest 20 archives.  The
timestamp is popped from the clock stream. -/
def createBackup (description : String) (st : BFS) : String × BFS :=
  let ts := st.clock.headD ""
  let st0 := { st with clock := st.clock.tail }
  let name := archiveNameOf ts
  let st1 := { st0 with
    archives := updateA st0.archives name st0.cfg,
    metas := updateA st0.metas (metaNameOf ts)
      { timestamp := ts, description := description, filename := name } }
  (name, cleanupOldBackups 20 st1)

/-- Embedding of `BackupManager.list_backups` (lines 360-391): read the
metadata files in descending filename order. -/
def listBackupNames (st : BFS) : List String :=
  pysortedRev ((st.metas.map Prod.fst).filter isMetaName)

/-- Embedding of `BackupManager.delete_backup` (lines 393-409)
parameterized by which `unlink` calls raise.  Returns the post-state and
the boolean result. -/
def deleteBackup (unlinkFails : String → Bool) (st : BFS) (name : String) :
    BFS × Bool :=
  let metaName := pyReplace name ".tar.gz" ".json"
  if (lookupA st.archives name).isSome then
    if unlinkFails name then (st, false)
    else
      let st1 := { st with archives := removeA st.archives name }
      if (lookupA st1.metas metaName).isSome then
        if unlinkFails metaName then (st1, false)
        else ({ st1 with metas := removeA st1.metas metaName }, true)
      else (st1, true)
  else
    if (lookupA st.metas metaName).isSome then
      if unlinkFails metaName then (st, false)
      else ({ st with metas := removeA st.metas metaName }, true)
    else (st, true)

/-- Deterministic stop/start behaviour of the external
`DockerServiceManager` passed to `restore_backup`. -/
structure SMgr where
  stop : String → Bool
  start : String → Bool

/-- The fixed service list quiesced by `restore_backup` (line 209). -/
def servicesToStop : List String := ["xray", "trojan", "singbox", "wireguard"]

/-- The structured result dictionary built by `restore_backup` (lines
171-179), extended with instrumentation fields that record the rollback
behaviour of this invocation: `directRollbacks` counts recursive
`restore_backup` calls made directly by this invocation,
`rollbackTarget` and `rollbackOutcome` record the snapshot the direct
rollback targeted and whether it reported success, and `totalRollbacks`
counts rollback invocations in the entire call tree. -/
structure RRes where
  success : Bool := false
  message : String := ""
  safety_backup : Option String := none
  services_stopped : List String := []
  services_restarted : List String := []
  files_restored : List String := []
  errors : List String := []
  directRollbacks : Nat := 0
  rollbackTarget : Option String := none
  rollbackOutcome : Option Bool := none
  totalRollbacks : Nat := 0
  deriving Repr, DecidableEq

/-- Success epilogue of `restore_backup` (lines 335-342). -/
def finishOk (r : RRes) (st : BFS) : RRes × BFS :=
  let base := "Backup restored successfully. " ++
    toString r.files_restored.length ++ " items restored."
  ({ r with
      success := true,
      message := if r.errors.isEmpty then base
        else base ++ " (" ++ toString r.errors.length ++ " warnings)" }, st)

/-- Embedding of `BackupManager.restore_backup` (lines 160-358), with a
fuel bound making the self-recursion at lines 327 and 352 total; fuel 0
returns a model-artifact result (reached only when the source would
recurse deeper than the given bound).  In this model the safety-backup
creation always succeeds and the only exception source inside the big
`try` block is `tarfile.open` on an archive file that no longer exists
(which happens when the pruning run inside the safety-backup creation
deleted the target archive). -/
def restoreBackup : Nat → Option SMgr → BFS → String → RRes × BFS
  | 0, _, st, _ =>
    ({ message := "recursion fuel exhausted (model artifact)" }, st)
  | fuel + 1, smq, st, backup_name =>
    let r0 : RRes := {}
    if (lookupA st.archives backup_name).isNone then
      ({ r0 with message := "Backup " ++ backup_name ++ " not found" }, st)
    else
      let p := createBackup "Pre-restore safety backup (automatic)" st
      let sname := p.1
      let st1 := p.2
      let r1 := { r0 with safety_backup := some sname }
      match smq with
      | none =>
        (match lookupA st1.archives backup_name with
         | none =>
           let e := "file not found: " ++ backup_name
           ({ r1 with
               message := "Error restoring backup: " ++ e,
               errors := r1.errors ++ [e] }, st1)
         | some cfgv =>
           finishOk { r1 with files_restored := ["configs"] }
             { st1 with cfg := cfgv })
      | some sm =>
        let stopped := servicesToStop.filter sm.stop
        let stopErrs := (servicesToStop.filter fun s => ¬ sm.stop s).map
          (fun s => "Failed to stop service: " ++ s)
        let r2 := { r1 with services_stopped := stopped, errors := r1.errors ++ stopErrs }
        match lookupA st1.archives backup_name with
        | none =>
          let e := "file not found: " ++ backup_name
          let r3 := { r2 with
            message := "Error restoring backup: " ++ e,
            errors := r2.errors ++ [e, "Attempting automatic rollback to safety backup..."] }
          let q := restoreBackup fuel (some sm) st1 sname
          ({ r3 with
              message := if q.1.success then
                  "Restore failed. Rolled back to previous state successfully."
                else
                  "Restore failed and rollback also failed. Manual intervention required.",
              directRollbacks := 1,
              rollbackTarget := some sname,
              rollbackOutcome := some q.1.success,
              totalRollbacks := 1 + q.1.totalRollbacks }, q.2)
        | some cfgv =>
          let st2 := { st1 with cfg := cfgv }
          let r3 := { r2 with files_restored := ["configs"] }
          if stopped.isEmpty then finishOk r3 st2
          else
            let restarted := stopped.filter sm.start
            let startErrs := (stopped.filter fun s => ¬ sm.start s).map
              (fun s => "Failed to restart service: " ++ s)
            let r4 := { r3 with
              services_restarted := restarted,
              errors := r3.errors ++ startErrs }
            let critical := stopped.filter fun s => ¬ restarted.contains s
            if critical.isEmpty then finishOk r4 st2
            else
              let r5 := { r4 with
                errors := r4.errors ++
                  ["Critical services failed to restart: " ++
                    String.intercalate ", " critical],
                message := "Restore completed but some services failed to restart. Consider rollback." }
              if 2 ≤ critical.length then
                let r6 := { r5 with
                  errors := r5.errors ++
                    ["Attempting automatic rollback to safety backup..."] }
                let q := restoreBackup fuel (some sm) st2 sname
                ({ r6 with
                    message := if q.1.success then
                        "Restore failed. Rolled back to previous state successfully."
                      else
                        "Restore failed and rollback also failed. Manual intervention required.",
                    directRollbacks := 1,
                    rollbackTarget := some sname,
                    rollbackOutcome := some q.1.success,
                    totalRollbacks := 1 + q.1.totalRollbacks }, q.2)
              else
                finishOk r5 st2

/-- Left-pad a decimal numeral to six digits, used to build distinct
strictly increasing second-granularity timestamps for concrete runs. -/
def pad6 (n : Nat) : String :=
  let s := toString n
  String.mk (List.replicate (6 - s.length) '0') ++ s

/-- The n-th timestamp of a monotone clock, in `%Y%m%d_%H%M%S` shape. -/
def tsOf (n : Nat) : String :=
  "20240101_" ++ pad6 n

/-!
Concrete scenarios used by the theorems below.
-/

/-- A service manager whose stops all succeed and whose starts all fail,
the worst case for the resume phase of a restore. -/
def smAllStartsFail : SMgr :=
  { stop := fun _ => true, start := fun _ => false }

/-- Initial backup state for the restore scenarios: one archive (the
restore target) and a monotone clock. -/
def restScenario : BFS :=
  { archives := [(archiveNameOf (tsOf 0), 7)], metas := [], cfg := 42,
    clock := (List.range 30).map fun n => tsOf (n + 1) }

/-- The restore target of `restScenario`. -/
def restTarget : String := archiveNameOf (tsOf 0)

/-- An empty well-formed document. -/
def emptyDoc : UDoc :=
  { schema_version := 1, users := [], server := 0, last_modified := none }

/-- Users-file state for the concurrency scenario: a well-formed empty
document and no backups. -/
def cleanUFS : UFS :=
  { usersFile := some (.doc emptyDoc), backups := [] }

/-- Date validation oracle that accepts everything (the records used in
concrete runs carry empty timestamps, which skip the check anyway). -/
def isoAlways : String → Bool := fun _ => true

/-- First concurrent `add_user` invocation (adds alice). -/
def procAlice : ProcDef := { uname := "alice", ts := "20240102_000001" }

/-- Second concurrent `add_user` invocation (adds bob). -/
def procBob : ProcDef := { uname := "bob", ts := "20240102_000002" }

/-- Initial two-process world over `cleanUFS`. -/
def w0 : TwoProcWorld := { fs := cleanUFS }

/-- Interleaving in which both processes load before either saves; every
segment respects the advisory lock, because `add_user` releases it
between its `load_users` and `save_users` calls. -/
def interleavedSched : List AStep := [.load1, .load2, .save1, .save2]

/-- Fully serialized schedule: the first `add_user` completes before the
second starts. -/
def serialSched : List AStep := [.load1, .save1, .load2, .save2]

/-- Document present when the older (manual) snapshot of the fallback
scenario is taken. -/
def docV1 : UDoc :=
  { schema_version := 1, users := [], server := 1, last_modified := none }

/-- Document present when the newer (auto) snapshot of the fallback
scenario is taken. -/
def docV2 : UDoc :=
  { schema_version := 1, users := [], server := 2, last_modified := none }

/-- Fallback scenario: a manual snapshot of `docV1` is created first, an
auto snapshot of `docV2` is created one day later, and then the live
users.json is corrupted. -/
def fallbackScenario : UFS :=
  let s0 : UFS := { usersFile := some (.doc docV1), backups := [] }
  let s1 := (createUserBackup "manual" "20240101_000000" s0).1
  let s2 := { s1 with usersFile := some (.doc docV2) }
  let s3 := (createUserBackup "auto" "20240102_000000" s2).1
  { s3 with usersFile := some (.corrupt 0) }

/-- A version-0 document, triggering migration. -/
def docV0 : UDoc :=
  { schema_version := 0, users := [("carol", mkUser "carol")], server := 3,
    last_modified := none }

/-- Users-file state whose document still has schema version 0. -/
def v0UFS : UFS :=
  { usersFile := some (.doc docV0), backups := [] }

/-- A transform step that always raises. -/
def failingStep : UDoc → Except String UDoc := fun _ => .error "boom"

/-- State for the retention run: empty backup directory and 21 pending
distinct timestamps. -/
def retentionStart : BFS :=
  { archives := [], metas := [], cfg := 0,
    clock := (List.range 21).map fun n => tsOf (n + 1) }

/-- Twenty-one consecutive `create_backup` calls with distinct
strictly increasing timestamps. -/
def retentionRun : BFS :=
  (List.range 21).foldl (fun st _ => (createBackup "" st).2) retentionStart

/-- State for the same-second collision run: two snapshot creations
whose `utcnow` strftime results fall in the same second. -/
def sameSecondStart : BFS :=
  { archives := [], metas := [], cfg := 5,
    clock := ["20240101_120000", "20240101_120000"] }

/-- First creation of the same-second run. -/
def sameSecondAfterOne : BFS := (createBackup "first" sameSecondStart).2

/-- Second creation of the same-second run. -/
def sameSecondAfterTwo : BFS := (createBackup "second" sameSecondAfterOne).2

/-- A backup state used by the delete witness: one archive with its
metadata record. -/
def delScenario : BFS :=
  { archives := [(archiveNameOf (tsOf 4), 9)],
    metas := [(metaNameOf (tsOf 4),
      { timestamp := tsOf 4, description := "", filename := archiveNameOf (tsOf 4) })],
    cfg := 0, clock := [] }

end Nimbus

namespace Nimbus

example : usernameOk "ab" = false := by decide
example : usernameOk "alice" = true := by decide
example : uuidOk "00000000-0000-4000-8000-000000000000" = true := by decide
example : uuidOk "not-a-uuid" = false := by decide

end Nimbus

/-!
General lemmas about the Python string order and the directory-listing
helpers, used by the claim theorems below.
-/

namespace Nimbus

theorem lexLe_refl (as : List Char) : lexLe as as = true := by
  induction as with
  | nil => rfl
  | cons a as ih => simp [lexLe, ih]

theorem lexLe_total (as bs : List Char) : lexLe as bs = true ∨ lexLe bs as = true := by
  induction as generalizing bs with
  | nil => left; rfl
  | cons a as ih =>
    cases bs with
    | nil => right; rfl
    | cons b bs =>
      by_cases h : a = b
      · subst h; simpa [lexLe] using ih bs
      · rcases lt_or_gt_of_ne h with hlt | hgt
        · left; simp [lexLe, h, hlt]
        · right; simp [lexLe, Ne.symm h, hgt]

theorem lexLe_trans {as bs cs : List Char} (h1 : lexLe as bs = true)
    (h2 : lexLe bs cs = true) : lexLe as cs = true := by
  induction as generalizing bs cs with
  | nil => rfl
  | cons a as ih =>
    cases bs with
    | nil => simp [lexLe] at h1
    | cons b bs =>
      cases cs with
      | nil => simp [lexLe] at h2
      | cons c cs =>
        by_cases hab : a = b
        · subst hab
          by_cases hac : a = c
          · subst hac
            simp only [lexLe, if_pos rfl] at h1 h2 ⊢
            exact ih h1 h2
          · simp only [lexLe, if_pos rfl] at h1
            simp only [lexLe, if_neg hac] at h2 ⊢
            exact h2
        · by_cases hbc : b = c
          · subst hbc
            simp only [lexLe, if_neg hab] at h1 ⊢
            exact h1
          · simp only [lexLe, if_neg hab] at h1
            simp only [lexLe, if_neg hbc] at h2
            have h1' : a < b := of_decide_eq_true h1
            have h2' : b < c := of_decide_eq_true h2
            have hac : a < c := lt_trans h1' h2'
            simp [lexLe, ne_of_lt hac, hac]

theorem lexLe_antisymm {as bs : List Char} (h1 : lexLe as bs = true)
    (h2 : lexLe bs as = true) : as = bs := by
  induction as generalizing bs with
  | nil =>
    cases bs with
    | nil => rfl
    | cons b bs => simp [lexLe] at h2
  | cons a as ih =>
    cases bs with
    | nil => simp [lexLe] at h1
    | cons b bs =>
      by_cases hab : a = b
      · subst hab
        simp only [lexLe, if_pos rfl] at h1 h2
        rw [ih h1 h2]
      · simp only [lexLe, if_neg hab] at h1
        simp only [lexLe, if_neg (Ne.symm hab)] at h2
        exact absurd (of_decide_eq_true h2) (asymm (of_decide_eq_true h1))

theorem strLe_refl (a : String) : StrLe a a := lexLe_refl a.data

theorem strLe_antisymm {a b : String} (h1 : StrLe a b) (h2 : StrLe b a) : a = b := by
  cases a; cases b
  exact congrArg String.mk (lexLe_antisymm h1 h2)

instance : IsTotal String StrLe := ⟨fun a b => lexLe_total a.data b.data⟩

instance : IsTrans String StrLe := ⟨fun _ _ _ => lexLe_trans⟩

theorem pysorted_sorted (l : List String) : List.Sorted StrLe (pysorted l) :=
  List.sorted_insertionSort _ l

theorem pysorted_perm (l : List String) : List.Perm (pysorted l) l :=
  List.perm_insertionSort _ l

theorem pysortedRev_sorted (l : List String) :
    List.Sorted (fun a b => StrLe b a) (pysortedRev l) := by
  rw [pysortedRev]
  exact (List.pairwise_reverse).2 (pysorted_sorted l)

theorem prefixB_append (as bs : List Char) : prefixB as (as ++ bs) = true := by
  induction as with
  | nil => rfl
  | cons a as ih => simp [prefixB, ih]

theorem lookupA_eq_none {α : Type} {l : List (String × α)} {n : String} :
    lookupA l n = none ↔ n ∉ l.map Prod.fst := by
  induction l with
  | nil => simp [lookupA]
  | cons p rest ih =>
    by_cases hp : p.1 = n
    · simp [lookupA, hp]
    · simp only [lookupA, if_neg hp, ih, List.map_cons, List.mem_cons]
      constructor
      · intro h hor
        rcases hor with h1 | h2
        · exact hp h1.symm
        · exact h h2
      · intro h h2
        exact h (Or.inr h2)

theorem updateA_of_not_mem {α : Type} {l : List (String × α)} {n : String}
    (h : lookupA l n = none) (v : α) : updateA l n v = l ++ [(n, v)] := by
  induction l with
  | nil => rfl
  | cons p rest ih =>
    by_cases hp : p.1 = n
    · rw [lookupA, if_pos hp] at h; cases h
    · rw [lookupA, if_neg hp] at h
      simp [updateA, hp, ih h]

theorem sorted_take_filter_bound {l : List String} (hs : List.Sorted StrLe l)
    (hnd : l.Nodup) {x : String} {m : Nat} (hx : x ∈ l.take m) :
    l.length - m ≤ (l.filter fun n => !(strLeb n x)).length := by
  have hsplit := List.take_append_drop m l
  have hrel : ∀ a ∈ l.take m, ∀ b ∈ l.drop m, StrLe a b := by
    have hs2 := hs; rw [← hsplit] at hs2
    exact (List.pairwise_append.1 hs2).2.2
  have hdisj : ∀ b ∈ l.drop m, b ≠ x := by
    have hnd2 := hnd; rw [← hsplit] at hnd2
    have hd := (List.nodup_append.1 hnd2).2.2
    intro b hb hbx
    exact hd hx (hbx ▸ hb)
  have hgt : ∀ b ∈ l.drop m, strLeb b x = false := by
    intro b hb
    by_contra hcon
    have hbx : StrLe b x := by
      cases hq : strLeb b x with
      | false => exact absurd hq hcon
      | true => exact hq
    exact hdisj b hb (strLe_antisymm hbx (hrel x hx b hb))
  have hfd : (l.drop m).filter (fun n => !(strLeb n x)) = l.drop m := by
    rw [List.filter_eq_self]
    intro b hb
    simp [hgt b hb]
  have hsub : List.Sublist ((l.drop m).filter (fun n => !(strLeb n x)))
      (l.filter (fun n => !(strLeb n x))) :=
    (List.drop_sublist m l).filter _
  have hlen := hsub.length_le
  rw [hfd, List.length_drop] at hlen
  exact hlen

theorem validateAll_error_of_mem {isoOk : String → Bool}
    {users : List (String × User)} {p : String × User} (hp : p ∈ users) {e : String}
    (he : userValidate isoOk p.2 = .error e) :
    ∃ e2, validateAll isoOk users = .error e2 := by
  induction users with
  | nil => cases hp
  | cons q rest ih =>
    cases hq : userValidate isoOk q.2 with
    | error e3 => exact ⟨e3, by simp [validateAll, hq]⟩
    | ok _ =>
      rcases List.mem_cons.1 hp with h | h
      · subst h; rw [hq] at he; cases he
      · simpa [validateAll, hq] using ih h

end Nimbus

namespace Nimbus

/-- C1 counterexample: with the target archive present, every stop
succeeding and every start failing, the restore invocation rolls back,
the rollback invocation rolls back again, and so on: three rollback
invocations occur within one restore call tree (the claim allows one),
so the recursion depth is not bounded by one. -/
theorem restore_rollback_depth_exceeds_one :
    (restoreBackup 3 (some smAllStartsFail) restScenario restTarget).1.totalRollbacks = 3 ∧
    1 < (restoreBackup 3 (some smAllStartsFail) restScenario restTarget).1.totalRollbacks := by
  constructor
  · rfl
  · decide

/-- C3 counterexample: interleaving two `add_user` invocations at the
granularity of their lock-protected segments loses an update: both
processes report success, yet alice is missing from the final on-disk
document. -/
theorem concurrent_add_user_lost_update :
    (runWorld isoAlways procAlice procBob w0 interleavedSched).ok1 = some true ∧
    (runWorld isoAlways procAlice procBob w0 interleavedSched).ok2 = some true ∧
    lookupA (docUsers (runWorld isoAlways procAlice procBob w0 interleavedSched).fs)
      "alice" = none ∧
    (lookupA (docUsers (runWorld isoAlways procAlice procBob w0 interleavedSched).fs)
      "bob").isSome = true := by
  refine ⟨rfl, rfl, rfl, rfl⟩

/-- C3 amended: each lock-protected segment works correctly in
isolation: when the two `add_user` invocations are serialized, both
updates survive. -/
theorem add_user_serialized_keeps_both :
    (lookupA (docUsers (runWorld isoAlways procAlice procBob w0 serialSched).fs)
      "alice").isSome = true ∧
    (lookupA (docUsers (runWorld isoAlways procAlice procBob w0 serialSched).fs)
      "bob").isSome = true := by
  refine ⟨rfl, rfl⟩

/-- C4 counterexample: with a manual snapshot created first (holding
`docV1`) and an auto snapshot created a day later (holding `docV2`),
the fallback selects the manual one first, because descending filename
order sorts the backup-type component before the timestamp; it copies
that older snapshot over the live document and then blocks re-acquiring
the advisory lock, so the load neither reaches the newer uncorrupted
snapshot nor returns at all. -/
theorem fallback_tries_older_backup_first :
    fallbackCandidates fallbackScenario =
      ["users_manual_20240101_000000.json", "users_auto_20240102_000000.json"] ∧
    loadUsers isoAlways fallbackScenario =
      .blocked { fallbackScenario with usersFile := some (.doc docV1) } := by
  refine ⟨rfl, rfl⟩

/-- C4 amended: the fallback enumerates candidates in descending
lexicographic filename order; on a decode error, if no candidate copies
successfully the load returns the empty mapping, and otherwise the
first copyable candidate is written over the live document and the call
blocks on the re-acquired advisory lock, never returning. -/
theorem fallback_order_and_blocking (isoOk : String → Bool) (st : UFS) :
    List.Sorted (fun a b => StrLe b a) (fallbackCandidates st) ∧
    (∀ n : Nat, st.usersFile = some (.corrupt n) →
      (fallbackCandidates st = [] → loadUsers isoOk st = .returns st []) ∧
      (∀ c cs, fallbackCandidates st = c :: cs →
        ∀ v, lookupA st.backups c = some v →
          loadUsers isoOk st = .blocked { st with usersFile := some v })) := by
  refine ⟨pysortedRev_sorted _, ?_⟩
  intro n hf
  constructor
  · intro hemp
    simp only [loadUsers, hf, hemp]
    rfl
  · intro c cs hcand v hv
    simp only [loadUsers, hf, hcand, restoreFromLatestBackup, hv]

/-- C4 witness: on the concrete fallback scenario the corrupt live file
sends the load into the fallback, whose first (older, manual) candidate
is copied and the call blocks. -/
theorem fallback_order_and_blocking_witness :
    List.Sorted (fun a b => StrLe b a) (fallbackCandidates fallbackScenario) ∧
    loadUsers isoAlways fallbackScenario =
      .blocked { fallbackScenario with usersFile := some (.doc docV1) } :=
  ⟨(fallback_order_and_blocking isoAlways fallbackScenario).1,
   ((fallback_order_and_blocking isoAlways fallbackScenario).2 0 rfl).2
     "users_manual_20240101_000000.json" ["users_auto_20240102_000000.json"]
     (by decide) (.doc docV1) (by decide)⟩

/-- C6 counterexample: a failing transform step raises from
`_migrate_data`, but `_migrate_data_if_needed` (its only caller,
invoked from `__init__`) catches and prints the exception, so no error
reaches the caller. -/
theorem migration_error_swallowed :
    (migrateData failingStep "20240105_000000" v0UFS).2 = .error "boom" ∧
    (migrateDataIfNeeded failingStep "20240105_000000" v0UFS).2 = .ok () := by
  refine ⟨rfl, rfl⟩

/-- C7 counterexample: starting from a catalog holding only the target
archive, a restore whose service restarts always fail recurses through
nested rollbacks; each nested invocation creates a fresh safety
snapshot, and the pruning run inside the twenty-first creation deletes
the outer invocation's phase-2 safety snapshot while that restore is
still in progress. -/
theorem pending_safety_snapshot_pruned :
    (restoreBackup 25 (some smAllStartsFail) restScenario restTarget).1.safety_backup
      = some (archiveNameOf (tsOf 1)) ∧
    lookupA (restoreBackup 25 (some smAllStartsFail) restScenario restTarget).2.archives
      (archiveNameOf (tsOf 1)) = none := by
  refine ⟨rfl, rfl⟩

/-- C8: after 21 snapshot creations with distinct increasing timestamps
and retention cap 20, 20 archives remain and the oldest archive is gone,
but all 21 metadata files survive: `_cleanup_old_backups` computes the
metadata name with `with_suffix(".json")`, which maps
`backup_<ts>.tar.gz` to `backup_<ts>.tar.json` instead of the actual
`backup_<ts>.json`, so the pruned snapshot's metadata is orphaned and
`list_backups` still lists it. -/
theorem retention_prunes_archive_but_orphans_metadata :
    (retentionRun.archives.map Prod.fst).length = 20 ∧
    lookupA retentionRun.archives (archiveNameOf (tsOf 1)) = none ∧
    (retentionRun.metas.map Prod.fst).length = 21 ∧
    (lookupA retentionRun.metas (metaNameOf (tsOf 1))).isSome = true ∧
    withSuffixJson (archiveNameOf (tsOf 1)) ≠ metaNameOf (tsOf 1) ∧
    (listBackupNames retentionRun).length = 21 := by
  set_option maxRecDepth 4000 in
  refine ⟨rfl, rfl, rfl, rfl, by decide, rfl⟩

/-- C9 counterexample: two snapshot creations within the same second
produce the same filename (there is no counter suffix), so the second
overwrites the first: one archive and one metadata file remain. -/
theorem same_second_snapshot_collision :
    (createBackup "first" sameSecondStart).1 =
      (createBackup "second" sameSecondAfterOne).1 ∧
    (sameSecondAfterTwo.archives.map Prod.fst).length = 1 ∧
    (sameSecondAfterTwo.metas.map Prod.fst).length = 1 := by
  refine ⟨rfl, rfl, rfl⟩

/-- C9 amended: `list_backups` returns records in descending
lexicographic metadata-filename order (newest first whenever timestamps
differ, since filenames embed only the second-granularity timestamp). -/
theorem list_backups_descending_filename_order (st : BFS) :
    List.Sorted (fun a b => StrLe b a) (listBackupNames st) :=
  pysortedRev_sorted _

end Nimbus

namespace Nimbus

/-- C2: when any record in the mapping fails format validation,
`save_users` raises the validation error raised by `User.validate` and
the filesystem state — the on-disk document and the backup directory —
is exactly the pre-call state: no write and no auto snapshot happened. -/
theorem save_users_invalid_record_rejected
    (isoOk : String → Bool) (ts : String) (users : List (String × User)) (st : UFS)
    (h : ∃ p ∈ users, ∃ e, userValidate isoOk p.2 = .error e) :
    (saveUsers isoOk ts users st).1 = st ∧
      ∃ e2, (saveUsers isoOk ts users st).2 = .error e2 := by
  obtain ⟨p, hp, e, he⟩ := h
  obtain ⟨e2, hva⟩ := validateAll_error_of_mem hp he
  rw [saveUsers, hva]
  exact ⟨rfl, e2, rfl⟩

/-- C2 witness: saving a mapping containing the two-character username
`ab` leaves the clean state untouched and raises. -/
theorem save_users_invalid_record_rejected_witness :
    (saveUsers isoAlways "20240103_000000" [("ab", mkUser "ab")] cleanUFS).1 = cleanUFS ∧
    ∃ e2, (saveUsers isoAlways "20240103_000000" [("ab", mkUser "ab")] cleanUFS).2 =
      .error e2 :=
  save_users_invalid_record_rejected isoAlways "20240103_000000"
    [("ab", mkUser "ab")] cleanUFS
    ⟨("ab", mkUser "ab"), by decide,
      "Username must be 3-32 characters, alphanumeric with _ or -", rfl⟩

/-- C6 amended: when the users file holds document `d` and the transform
step raises `e`, `_migrate_data` copies the pre-migration snapshot back
over the live document and re-raises `e`; `_migrate_data_if_needed`,
however, returns normally on every input, so the error never reaches the
caller. -/
theorem migrate_data_restores_and_if_needed_swallows
    (step : UDoc → Except String UDoc) (ts : String) (st : UFS) (d : UDoc) (e : String)
    (hf : st.usersFile = some (.doc d)) (hstep : step d = .error e) :
    ((migrateData step ts st).1.usersFile = some (.doc d) ∧
      (migrateData step ts st).2 = .error e) ∧
    ∀ (st2 : UFS) (ts2 : String), (migrateDataIfNeeded step ts2 st2).2 = .ok () := by
  constructor
  · rw [migrateData, hf]
    simp only [createUserBackup, hf, hstep]
    exact ⟨trivial, trivial⟩
  · intro st2 ts2
    rw [migrateDataIfNeeded]
    cases hf2 : st2.usersFile with
    | none => rfl
    | some c =>
      cases c with
      | corrupt n => rfl
      | doc d2 =>
        by_cases hv : d2.schema_version < 1
        · simp [hv]
        · simp [hv]

/-- C6 witness: on the version-0 state with a failing step, the document
is restored and the error re-raised by `_migrate_data`, while
`_migrate_data_if_needed` on the clean state reports no error. -/
theorem migrate_data_restores_and_if_needed_swallows_witness :
    ((migrateData failingStep "20240106_000000" v0UFS).1.usersFile =
        some (.doc docV0) ∧
      (migrateData failingStep "20240106_000000" v0UFS).2 = .error "boom") ∧
    ∀ (st2 : UFS) (ts2 : String),
      (migrateDataIfNeeded failingStep ts2 st2).2 = .ok () :=
  migrate_data_restores_and_if_needed_swallows failingStep "20240106_000000"
    v0UFS docV0 "boom" rfl rfl

/-- C7 amended: retention pruning applies no special protection to a
pending safety snapshot; an archive entry survives a pruning run exactly
because fewer than `keep` archives order lexicographically after it.
Formally: if fewer than `keep` of the archive filenames are strictly
greater than `s`, the entry `(s, v)` survives `_cleanup_old_backups`. -/
theorem cleanup_keeps_archives_with_few_newer
    (keep : Nat) (st : BFS) (s : String) (v : Nat)
    (hnd : (st.archives.map Prod.fst).Nodup)
    (hmem : (s, v) ∈ st.archives)
    (hcnt : (((st.archives.map Prod.fst).filter isArchiveName).filter
      (fun n => !(strLeb n s))).length < keep) :
    (s, v) ∈ (cleanupOldBackups keep st).archives := by
  rw [cleanupOldBackups]
  set g := (st.archives.map Prod.fst).filter isArchiveName with hg
  by_cases hlen : (pysorted g).length > keep
  · simp only [if_pos hlen]
    refine List.mem_filter.2 ⟨hmem, ?_⟩
    have hnotin : s ∉ (pysorted g).take ((pysorted g).length - keep) := by
      intro hin
      have hsg : List.Sorted StrLe (pysorted g) := pysorted_sorted g
      have hndg : (pysorted g).Nodup :=
        ((pysorted_perm g).nodup_iff).2 (hnd.filter _)
      have hb := sorted_take_filter_bound hsg hndg hin
      rw [Nat.sub_sub_self (le_of_lt hlen)] at hb
      have hperm := (pysorted_perm g).filter (fun n => !(strLeb n s))
      rw [hperm.length_eq] at hb
      exact absurd hcnt (not_lt.2 hb)
    simpa using hnotin
  · simp only [if_neg hlen]
    exact hmem

end Nimbus

namespace Nimbus

/-- C7 witness: the single archive of `delScenario` has no newer
archives, so a pruning run with cap 20 keeps it. -/
theorem cleanup_keeps_archives_with_few_newer_witness :
    (archiveNameOf (tsOf 4), 9) ∈ (cleanupOldBackups 20 delScenario).archives :=
  cleanup_keeps_archives_with_few_newer 20 delScenario (archiveNameOf (tsOf 4)) 9
    (by decide) (by decide) (by decide)

/-- C10: `delete_backup` returns `True` whenever neither the archive nor
its metadata file exists (nothing is unlinked, the state is unchanged),
and it returns `False` only when an existing file's unlink raised. -/
theorem delete_backup_absent_returns_true
    (unlinkFails : String → Bool) (st : BFS) (name : String) :
    ((lookupA st.archives name = none ∧
        lookupA st.metas (pyReplace name ".tar.gz" ".json") = none) →
      deleteBackup unlinkFails st name = (st, true)) ∧
    ((deleteBackup unlinkFails st name).2 = false →
      ((lookupA st.archives name).isSome ∧ unlinkFails name = true) ∨
      ((lookupA st.metas (pyReplace name ".tar.gz" ".json")).isSome ∧
        unlinkFails (pyReplace name ".tar.gz" ".json") = true)) := by
  constructor
  · intro ⟨ha, hm⟩
    rw [deleteBackup]
    simp only [ha, hm, Option.isSome_none]
    rfl
  · intro hfalse
    rw [deleteBackup] at hfalse
    by_cases ha : (lookupA st.archives name).isSome
    · simp only [ha, if_pos] at hfalse
      by_cases hf : unlinkFails name
      · exact Or.inl ⟨ha, hf⟩
      · simp only [hf, if_neg, Bool.false_eq_true, if_false] at hfalse
        by_cases hm : (lookupA st.metas (pyReplace name ".tar.gz" ".json")).isSome
        · have hm2 : (lookupA
              { st with archives := removeA st.archives name }.metas
              (pyReplace name ".tar.gz" ".json")).isSome = true := hm
          simp only [hm2, if_pos] at hfalse
          by_cases hf2 : unlinkFails (pyReplace name ".tar.gz" ".json")
          · exact Or.inr ⟨hm, hf2⟩
          · simp [hf2] at hfalse
        · have hm2 : (lookupA
              { st with archives := removeA st.archives name }.metas
              (pyReplace name ".tar.gz" ".json")).isSome = false := by
            simpa using hm
          simp [hm2] at hfalse
    · simp only [Bool.not_eq_true] at ha
      simp only [ha, Bool.false_eq_true, if_false] at hfalse
      by_cases hm : (lookupA st.metas (pyReplace name ".tar.gz" ".json")).isSome
      · simp only [hm, if_pos] at hfalse
        by_cases hf2 : unlinkFails (pyReplace name ".tar.gz" ".json")
        · exact Or.inr ⟨hm, hf2⟩
        · simp [hf2] at hfalse
      · simp only [Bool.not_eq_true] at hm
        simp [hm] at hfalse

/-- C10 witness: deleting a backup name with no archive and no metadata
file reports success and changes nothing, for an unlink model in which
every unlink would raise. -/
theorem delete_backup_absent_returns_true_witness :
    deleteBackup (fun _ => true) delScenario "backup_20990101_000000.tar.gz" =
      (delScenario, true) :=
  (delete_backup_absent_returns_true (fun _ => true) delScenario
    "backup_20990101_000000.tar.gz").1 ⟨rfl, rfl⟩

end Nimbus

namespace Nimbus

/-- C5: a `save_users` call on an existing well-formed document `old`
with all records valid creates the auto snapshot `users_auto_<ts>.json`
holding exactly the pre-save on-disk contents, that snapshot is the only
new backup-directory entry (and survives the auto-backup pruning, since
a monotone clock makes it the lexicographically largest auto backup),
and the new document is written afterwards. -/
theorem save_users_snapshot_before_write
    (isoOk : String → Bool) (ts : String) (users : List (String × User)) (st : UFS)
    (old : UDoc)
    (hfile : st.usersFile = some (.doc old))
    (hvalid : validateAll isoOk users = .ok ())
    (hfresh : lookupA st.backups ("users_auto_" ++ ts ++ ".json") = none)
    (hnd : (st.backups.map Prod.fst).Nodup)
    (hmax : ∀ n ∈ st.backups.map Prod.fst,
      (pyStartsWith n "users_auto_" && pyEndsWith n ".json") = true →
      StrLe n ("users_auto_" ++ ts ++ ".json")) :
    ("users_auto_" ++ ts ++ ".json", UContent.doc old) ∈
        (saveUsers isoOk ts users st).1.backups ∧
    ((saveUsers isoOk ts users st).1.backups.map Prod.fst).count
        ("users_auto_" ++ ts ++ ".json") = 1 ∧
    (∀ q ∈ (saveUsers isoOk ts users st).1.backups,
        q.1 ≠ "users_auto_" ++ ts ++ ".json" → q ∈ st.backups) ∧
    (saveUsers isoOk ts users st).1.usersFile =
      some (.doc { schema_version := 1, users := users, server := old.server,
                   last_modified := some ts }) := by
  set bname := "users_auto_" ++ ts ++ ".json" with hbname
  have hsave : saveUsers isoOk ts users st =
      (({ (createUserBackup "auto" ts st).1 with
          usersFile := some (.doc
            { schema_version := 1, users := users,
              server := old.server, last_modified := some ts }) } : UFS),
        .ok ()) := by
    rw [saveUsers, hvalid, hfile]
  have hbnotmem : bname ∉ st.backups.map Prod.fst := lookupA_eq_none.1 hfresh
  have hupd : updateA st.backups bname (.doc old) =
      st.backups ++ [(bname, .doc old)] := updateA_of_not_mem hfresh _
  have hname : ("users_" ++ "auto" ++ "_" ++ ts ++ ".json") = bname := rfl
  set backups1 := st.backups ++ [(bname, UContent.doc old)] with hb1
  have hcreate : (createUserBackup "auto" ts st).1.backups =
      (let autos := pysorted ((backups1.map Prod.fst).filter fun n =>
         pyStartsWith n "users_auto_" && pyEndsWith n ".json")
       if autos.length > 10 then
         backups1.filter fun p => !((autos.take (autos.length - 10)).contains p.1)
       else backups1) := by
    rw [createUserBackup, hfile]
    simp only [hname, hupd, ← hb1, eq_self_iff_true, if_true]
  have hnames1 : backups1.map Prod.fst = st.backups.map Prod.fst ++ [bname] := by
    simp [hb1]
  have hnd1 : (backups1.map Prod.fst).Nodup := by
    rw [hnames1]
    exact List.Nodup.append hnd (List.nodup_singleton bname)
      (fun a ha hb => hbnotmem ((List.mem_singleton.1 hb) ▸ ha))
  set g := (backups1.map Prod.fst).filter
    (fun n => pyStartsWith n "users_auto_" && pyEndsWith n ".json") with hgdef
  have hgle : ∀ n ∈ g, StrLe n bname := by
    intro n hn
    have hn2 := List.mem_filter.1 hn
    rw [hnames1] at hn2
    rcases List.mem_append.1 hn2.1 with h | h
    · exact hmax n h hn2.2
    · have : n = bname := by simpa using h
      rw [this]; exact strLe_refl bname
  have hmem1 : (bname, UContent.doc old) ∈ backups1 :=
    List.mem_append_right _ (List.mem_singleton.2 rfl)
  have hcnt1 : (backups1.map Prod.fst).count bname = 1 := by
    rw [hnames1, List.count_append]
    rw [List.count_eq_zero_of_not_mem hbnotmem]
    simp
  have hsub1 : ∀ q ∈ backups1, q.1 ≠ bname → q ∈ st.backups := by
    intro q hq hqn
    rcases List.mem_append.1 hq with h | h
    · exact h
    · exact absurd (congrArg Prod.fst (List.mem_singleton.1 h)) hqn
  rw [hsave]
  simp only [hcreate]
  by_cases hlen : (pysorted g).length > 10
  · simp only [hgdef, hb1] at hlen ⊢
    rw [if_pos hlen]
    have hdead : bname ∉ (pysorted g).take ((pysorted g).length - 10) := by
      intro hin
      have hsg : List.Sorted StrLe (pysorted g) := pysorted_sorted g
      have hndg : (pysorted g).Nodup :=
        ((pysorted_perm g).nodup_iff).2 (hnd1.filter _)
      have hb := sorted_take_filter_bound hsg hndg hin
      rw [Nat.sub_sub_self (le_of_lt hlen)] at hb
      have hfe : (pysorted g).filter (fun n => !(strLeb n bname)) = [] := by
        rw [List.filter_eq_nil_iff]
        intro a ha
        have := hgle a ((pysorted_perm g).mem_iff.1 ha)
        simp [this]
      rw [hfe] at hb
      simp at hb
    have hpred : (!((pysorted g).take ((pysorted g).length - 10)).contains bname) =
        true := by
      simpa using hdead
    refine ⟨?_, ?_, ?_, trivial⟩
    · exact List.mem_filter.2 ⟨hmem1, hpred⟩
    · have hsubl : List.Sublist
          ((backups1.filter fun p =>
            !((pysorted g).take ((pysorted g).length - 10)).contains p.1).map Prod.fst)
          (backups1.map Prod.fst) :=
        (List.filter_sublist _).map Prod.fst
      have hndf := hnd1.sublist hsubl
      have hmemf : bname ∈ (backups1.filter fun p =>
          !((pysorted g).take ((pysorted g).length - 10)).contains p.1).map Prod.fst :=
        List.mem_map.2 ⟨(bname, UContent.doc old),
          List.mem_filter.2 ⟨hmem1, hpred⟩, rfl⟩
      exact List.count_eq_one_of_mem hndf hmemf
    · intro q hq hqn
      exact hsub1 q (List.mem_filter.1 hq).1 hqn
  · simp only [hgdef, hb1] at hlen ⊢
    rw [if_neg hlen]
    exact ⟨hmem1, hcnt1, hsub1, trivial⟩

end Nimbus

namespace Nimbus

/-- C5 witness: saving one valid record over the clean state creates
exactly one auto snapshot holding the previous empty document, then
writes the new document. -/
theorem save_users_snapshot_before_write_witness :
    ("users_auto_" ++ "20240107_000000" ++ ".json", UContent.doc emptyDoc) ∈
        (saveUsers isoAlways "20240107_000000" [("dave", mkUser "dave")]
          cleanUFS).1.backups ∧
    ((saveUsers isoAlways "20240107_000000" [("dave", mkUser "dave")]
        cleanUFS).1.backups.map Prod.fst).count
        ("users_auto_" ++ "20240107_000000" ++ ".json") = 1 ∧
    (∀ q ∈ (saveUsers isoAlways "20240107_000000" [("dave", mkUser "dave")]
        cleanUFS).1.backups,
        q.1 ≠ "users_auto_" ++ "20240107_000000" ++ ".json" → q ∈ cleanUFS.backups) ∧
    (saveUsers isoAlways "20240107_000000" [("dave", mkUser "dave")]
        cleanUFS).1.usersFile =
      some (.doc { schema_version := 1, users := [("dave", mkUser "dave")],
                   server := emptyDoc.server, last_modified := some "20240107_000000" }) :=
  save_users_snapshot_before_write isoAlways "20240107_000000"
    [("dave", mkUser "dave")] cleanUFS emptyDoc rfl rfl rfl (by decide) (by decide)

end Nimbus


namespace Nimbus

/-- C1 amended: every `restore_backup` invocation performs at most one
direct rollback re-invocation; when it performs one, the rollback
targets this invocation's phase-2 safety snapshot; and the final message
distinguishes a failed rollback ("manual intervention required") from a
successful one.  The rollback invocation itself runs the full pipeline,
so rollbacks of rollbacks remain possible (see the counterexample). -/
theorem restore_direct_rollback_once
    (fuel : Nat) (smq : Option SMgr) (st : BFS) (name : String)
    (res : RRes) (st2 : BFS)
    (hrun : restoreBackup fuel smq st name = (res, st2)) :
    res.directRollbacks ≤ 1 ∧
    (res.directRollbacks = 1 → res.rollbackTarget = res.safety_backup) ∧
    (res.rollbackOutcome = some false → res.message =
      "Restore failed and rollback also failed. Manual intervention required.") ∧
    (res.rollbackOutcome = some true → res.message =
      "Restore failed. Rolled back to previous state successfully.") := by
  rw [restoreBackup.eq_def] at hrun
  repeat' (first | split at hrun | dsimp only at hrun)
  all_goals injection hrun with h1 h2
  all_goals subst h1
  all_goals refine ⟨?_, ?_, ?_, ?_⟩
  all_goals try intro h
  all_goals solve
    | simp
    | (simp only [Option.some.injEq] at h; simp [h])
    | (exfalso; simp at h)
    | simp_all

end Nimbus

namespace Nimbus

/-- C1 witness: at fuel 2 with every restart failing, the single direct
rollback of the top invocation fails and the reported message is the
manual-intervention one. -/
theorem restore_direct_rollback_once_witness :
    (restoreBackup 2 (some smAllStartsFail) restScenario restTarget).1.directRollbacks ≤ 1 ∧
    (restoreBackup 2 (some smAllStartsFail) restScenario restTarget).1.message =
      "Restore failed and rollback also failed. Manual intervention required." :=
  ⟨(restore_direct_rollback_once 2 (some smAllStartsFail) restScenario restTarget
      (restoreBackup 2 (some smAllStartsFail) restScenario restTarget).1
      (restoreBackup 2 (some smAllStartsFail) restScenario restTarget).2 rfl).1,
   (restore_direct_rollback_once 2 (some smAllStartsFail) restScenario restTarget
      (restoreBackup 2 (some smAllStartsFail) restScenario restTarget).1
      (restoreBackup 2 (some smAllStartsFail) restScenario restTarget).2 rfl).2.2.1
     (by rfl)⟩

end Nimbus
